import Mathlib

/-!
Shallow embedding of `blynk.py`, a command-line utility that reads and sets
the state of statically configured home-automation devices through an HTTP
control service.

Numeric pin values are modelled by `ℚ` (Python promotes every value with
`float(value)`; the script only ever manipulates exact decimal values, and
`Float.is_integer` corresponds to `q.den = 1`).  Python's bitwise `^` on
arbitrary-precision integers is `Int.xor` (two's-complement semantics).
HTTP traffic is modelled by an oracle `raws : String → ℚ` giving the raw
numeric payload a read of each device would return, and by a trace of
`Event`s (one per HTTP request the script would issue).  Python exceptions
(`KeyError`, `TypeError`, `ValueError`) become explicit `PyError` values
that abort the remaining trace, exactly as an uncaught exception aborts the
device loop.
-/

namespace Blynk

/-- One device entry of the `all_devices` table of `blynk.py`.  The Python
dict may lack the `"default"` and `"group"` keys, hence the `Option`s. -/
structure DeviceConfig where
  pin : String
  auth : String
  default : Option ℤ
  group : Option String
  deriving DecidableEq, Repr

/-- The `all_devices` configuration table, in Python dict insertion order. -/
def all_devices : List (String × DeviceConfig) :=
  [("bedroom_light", ⟨"V3", "<auth_token>", some 0, some "bedroom"⟩),
   ("kitchen_light", ⟨"d2", "<auth_token>", some 1, some "kitchen"⟩),
   ("temperature",   ⟨"V6", "<auth_token>", none, none⟩),
   ("humidity",      ⟨"V5", "<auth_token>", none, none⟩)]

/-- The `exclude` tuple: devices that are never toggled on/off. -/
def exclude : List String := ["temperature", "humidity"]

/-- The `groups` tuple: names of device groups/rooms. -/
def groups : List String := ["bedroom", "kitchen"]

/-- Python `process_pin(value, default_state)`: modify a pin value according to its
default state.  `float(value).is_integer()` is `value.den = 1`, and
`int(value) ^ default_state` is `Int.xor value.num default_state`. -/
def process_pin (value : ℚ) (default_state : ℤ) : ℚ :=
  if value.den = 1 then ((Int.xor value.num default_state : ℤ) : ℚ) else value

/-- Python exceptions the script can raise. -/
inductive PyError where
  /-- Python `KeyError` on a dict lookup; carries the missing key. -/
  | keyError (key : String)
  /-- Python `TypeError`, e.g. `float ^ int` in `flip_state`. -/
  | typeError
  /-- Python `ValueError`, e.g. `float(action)` on a non-numeric token. -/
  | valueError
  deriving DecidableEq, Repr

instance exceptDecEq {ε α : Type} [DecidableEq ε] [DecidableEq α] :
    DecidableEq (Except ε α) := fun a b =>
  match a, b with
  | .ok x, .ok y =>
      if h : x = y then .isTrue (by rw [h])
      else .isFalse (fun hh => h (Except.ok.inj hh))
  | .error x, .error y =>
      if h : x = y then .isTrue (by rw [h])
      else .isFalse (fun hh => h (Except.error.inj hh))
  | .ok _, .error _ => .isFalse (fun hh => Except.noConfusion hh)
  | .error _, .ok _ => .isFalse (fun hh => Except.noConfusion hh)

/-- One HTTP request issued by the script. -/
inductive Event where
  /-- A `GET {server}/{auth}/get/{pin}` read request for a device. -/
  | read (device : String)
  /-- A `GET {server}/{auth}/update/{pin}?value={encoded}` write request:
  `logical` is the value handed to `set_to_state`, `encoded` the value put
  on the wire after `process_pin`. -/
  | write (device : String) (logical : ℚ) (encoded : ℚ)
  deriving DecidableEq, Repr

/-- Group attribute of a configured device (`all_devices[x].get("group")`). -/
def devGroup (device : String) : Option String :=
  (List.lookup device all_devices).bind DeviceConfig.group

/-- Default attribute of a configured device, with a junk value for devices
that have none (only ever used where the entry is known to exist). -/
def devDefault (device : String) : ℤ :=
  ((List.lookup device all_devices).bind DeviceConfig.default).getD 0

/-- Python `set_to_state(device, value)`: encode `value` with the device's
`"default"` and issue the update request.  The two dict lookups
(`all_devices[device]`, then `["default"]`) happen before the request, so a
missing key raises and no request is issued. -/
def set_to_state (device : String) (value : ℚ) : Except PyError Event :=
  match List.lookup device all_devices with
  | none => .error (.keyError device)
  | some cfg =>
      match cfg.default with
      | none => .error (.keyError "default")
      | some d => .ok (.write device value (process_pin value d))

/-- The pure part of `get_state`: given the device's config entry and the raw
payload, the value the function returns.  Mirrors
`state if state not in (0, 1) or device in exclude else
process_pin(state, all_devices[device]["default"])`. -/
def get_state_val (device : String) (cfg : DeviceConfig) (raw : ℚ) :
    Except PyError ℚ :=
  let state := process_pin raw 0
  if ¬(state = 0 ∨ state = 1) ∨ device ∈ exclude then .ok state
  else
    match cfg.default with
    | none => .error (.keyError "default")
    | some d => .ok (process_pin state d)

/-- Python `get_state(device)`: the read request it issues and the value it returns.
The `all_devices[device]` lookup precedes the request. -/
def get_state (device : String) (raws : String → ℚ) :
    List Event × Except PyError ℚ :=
  match List.lookup device all_devices with
  | none => ([], .error (.keyError device))
  | some cfg => ([.read device], get_state_val device cfg (raws device))

/-- Python `flip_state(device)`: read the current state and write its toggle.
Python evaluates `get_state(device) ^ 1`; `^` on a non-integer state raises
`TypeError` before `set_to_state` is entered. -/
def flip_state (device : String) (raws : String → ℚ) :
    List Event × Option PyError :=
  match get_state device raws with
  | (es, .error e) => (es, some e)
  | (es, .ok s) =>
      if s.den = 1 then
        match set_to_state device ((Int.xor s.num 1 : ℤ) : ℚ) with
        | .error e => (es, some e)
        | .ok ev => (es ++ [ev], none)
      else (es, some .typeError)

/-- Python `apply_function(devices, set_to_state, value)`: one write per device, in
order, aborting at the first exception. -/
def run_writes (value : ℚ) : List String → List Event × Option PyError
  | [] => ([], none)
  | d :: ds =>
    match set_to_state d value with
    | .error e => ([], some e)
    | .ok ev =>
        match run_writes value ds with
        | (es, err) => (ev :: es, err)

/-- Python `apply_function(devices, flip_state)`: one read-then-write round trip per
device, aborting at the first exception. -/
def run_flips (raws : String → ℚ) : List String → List Event × Option PyError
  | [] => ([], none)
  | d :: ds =>
    match flip_state d raws with
    | (es, some e) => (es, some e)
    | (es, none) =>
        match run_flips raws ds with
        | (es2, err) => (es ++ es2, err)

/-- Python dict assignment `status[device] = value`: update in place if the
key exists, else append. -/
def dictInsert (key : String) (value : ℚ) :
    List (String × ℚ) → List (String × ℚ)
  | [] => [(key, value)]
  | (k, v) :: rest =>
      if key = k then (key, value) :: rest else (k, v) :: dictInsert key value rest

/-- Python `get_status_as_dict(devices)`: read each device in order into a dict,
aborting at the first exception. -/
def run_status (raws : String → ℚ) :
    List String → List (String × ℚ) →
      List Event × Except PyError (List (String × ℚ))
  | [], acc => ([], .ok acc)
  | d :: ds, acc =>
    match get_state d raws with
    | (es, .error e) => (es, .error e)
    | (es, .ok v) =>
        match run_status raws ds (dictInsert d v acc) with
        | (es2, r) => (es ++ es2, r)

/-- Python `str` of a state value as it appears in the table.  The script
only ever renders whole-number states in the properties below; a fractional
value would render as Python's float repr, which is not modelled. -/
def pyStr (q : ℚ) : String :=
  if q.den = 1 then toString q.num else toString q

/-- The f-string pad `{s: <width}`: left-align, pad on the right with
spaces, never truncate. -/
def pyPad (s : String) (width : Nat) : String :=
  s ++ String.mk (List.replicate (width - s.length) ' ')

/-- Python `max(len(x) for x in status_dict)`; Python raises `ValueError` on an
empty dict, which the caller `print_status` guards via `take_action` below. -/
def maxNameLen (status_dict : List (String × ℚ)) : Nat :=
  (status_dict.map (fun p => p.1.length)).foldl max 0

/-- Python `print_status(devices)` minus the network part: render an already-read
status dict as the aligned table, dropping the final newline
(`table[:-1:]`). -/
def print_status_render (status_dict : List (String × ℚ)) : String :=
  let max_len := maxNameLen status_dict + 1
  let table := status_dict.foldl
    (fun t p => t ++ pyPad p.1 max_len ++ ": " ++ pyPad (pyStr p.2) 3 ++ " \n") ""
  String.mk table.data.dropLast

/-- Python `action[:1] in ("s", "p")`, the exclusion-override test used by both
filters of `choose_devices`. -/
def isSP (action : String) : Bool :=
  action.data.take 1 == ['s'] || action.data.take 1 == ['p']

/-- Python `choose_devices(action, *args)`: wildcard, group, or literal device
list.  `args[0]` on an empty argument list raises `IndexError`, modelled by
`none`. -/
def choose_devices (action : String) (args : List String) :
    Option (List String) :=
  match args with
  | [] => none
  | a0 :: _ =>
    if a0 = "all" ∨ a0 = "a" then
      some ((all_devices.map Prod.fst).filter fun x =>
        !exclude.contains x || isSP action)
    else if a0 ∈ groups then
      some ((all_devices.map Prod.fst).filter fun x =>
        (some a0 == devGroup x) && (!exclude.contains x || isSP action))
    else some args

/-- The action the dispatcher's prefix chain of `take_action` selects,
in the source's priority order. -/
inductive ActionKind where
  | flip | off | on | just | print | status | numericSet
  deriving DecidableEq, Repr

/-- Branch selection of `take_action`, literally the if-chain conditions
`action[:1] == "f"`, `action[:2] == "of"`, `action == "on"`,
`action[:1] == "j"`, `action[:1] == "p"`, `action[:1] == "s"`. -/
def classify (action : String) : ActionKind :=
  if action.data.take 1 = ['f'] then .flip
  else if action.data.take 2 = ['o', 'f'] then .off
  else if action.data = ['o', 'n'] then .on
  else if action.data.take 1 = ['j'] then .just
  else if action.data.take 1 = ['p'] then .print
  else if action.data.take 1 = ['s'] then .status
  else .numericSet

/-- The list comprehension `[all_devices[device]["group"] for device in
args]` of the `just` branch: the group of every argument device, with the
`KeyError` either lookup can raise. -/
def args_groups : List String → Except PyError (List String)
  | [] => .ok []
  | a :: rest =>
    match List.lookup a all_devices with
    | none => .error (.keyError a)
    | some cfg =>
        match cfg.group with
        | none => .error (.keyError "group")
        | some g => (args_groups rest).map (fun gs => g :: gs)

/-- The outer comprehension of the `just` branch over the candidate devices:
`device not in exclude and all_devices[device]["group"] in gs and device not
in args` — the exclusion test short-circuits before the group lookup. -/
def turn_off_filter (args gs : List String) :
    List String → Except PyError (List String)
  | [] => .ok []
  | d :: ds =>
    if exclude.contains d then turn_off_filter args gs ds
    else
      match List.lookup d all_devices with
      | none => .error (.keyError d)
      | some cfg =>
          match cfg.group with
          | none => .error (.keyError "group")
          | some g =>
              if gs.contains g && !args.contains d then
                (turn_off_filter args gs ds).map (fun rest => d :: rest)
              else turn_off_filter args gs ds

/-- What a run of `take_action` prints, if anything. -/
inductive Output where
  /-- Python `status` with a single device: the bare state value. -/
  | scalar (value : ℚ)
  /-- Python `status` with any other device count: the name-to-state dict. -/
  | dict (entries : List (String × ℚ))
  /-- Python `print`: the rendered table. -/
  | table (rendered : String)
  deriving DecidableEq, Repr

/-- Observable behaviour of one `take_action` run: the HTTP requests issued
in order, what is printed, and the uncaught exception if one aborts it. -/
structure Trace where
  events : List Event
  output : Option Output
  error : Option PyError
  deriving DecidableEq, Repr

/-- Python `take_action(action, *args)`.  `float(action)` in the final branch is
abstracted by the `parseFloat` parameter, since its acceptance of numeric
literals is a property of the Python runtime, not of this script; `none`
models `ValueError`. -/
def take_action (parseFloat : String → Option ℚ) (action : String)
    (args : List String) (raws : String → ℚ) : Trace :=
  if action.data.take 1 = ['f'] then
    let r := run_flips raws args
    ⟨r.1, none, r.2⟩
  else if action.data.take 2 = ['o', 'f'] then
    let r := run_writes 0 args
    ⟨r.1, none, r.2⟩
  else if action.data = ['o', 'n'] then
    let r := run_writes 1 args
    ⟨r.1, none, r.2⟩
  else if action.data.take 1 = ['j'] then
    let r := run_writes 1 args
    match r.2 with
    | some e => ⟨r.1, none, some e⟩
    | none =>
        match args_groups args with
        | .error e => ⟨r.1, none, some e⟩
        | .ok gs =>
            match turn_off_filter args gs (all_devices.map Prod.fst) with
            | .error e => ⟨r.1, none, some e⟩
            | .ok offs =>
                let r2 := run_writes 0 offs
                ⟨r.1 ++ r2.1, none, r2.2⟩
  else if action.data.take 1 = ['p'] then
    match run_status raws args [] with
    | (es, .error e) => ⟨es, none, some e⟩
    | (es, .ok ps) =>
        match ps with
        | [] => ⟨es, none, some .valueError⟩
        | _ => ⟨es, some (.table (print_status_render ps)), none⟩
  else if action.data.take 1 = ['s'] then
    match args with
    | [a] =>
        match get_state a raws with
        | (es, .error e) => ⟨es, none, some e⟩
        | (es, .ok v) => ⟨es, some (.scalar v), none⟩
    | _ =>
        match run_status raws args [] with
        | (es, .error e) => ⟨es, none, some e⟩
        | (es, .ok ps) => ⟨es, some (.dict ps), none⟩
  else
    match parseFloat action with
    | none => ⟨[], none, some .valueError⟩
    | some v =>
        let r := run_writes v args
        ⟨r.1, none, r.2⟩

/-- A copy of `take_action` with its branch bodies keyed by the selected
`ActionKind`; proved below to agree with `take_action`, so claims can case
on the selected action instead of on the raw prefix tests. -/
def dispatch (parseFloat : String → Option ℚ) (k : ActionKind)
    (action : String) (args : List String) (raws : String → ℚ) : Trace :=
  match k with
  | .flip =>
      let r := run_flips raws args
      ⟨r.1, none, r.2⟩
  | .off =>
      let r := run_writes 0 args
      ⟨r.1, none, r.2⟩
  | .on =>
      let r := run_writes 1 args
      ⟨r.1, none, r.2⟩
  | .just =>
      let r := run_writes 1 args
      match r.2 with
      | some e => ⟨r.1, none, some e⟩
      | none =>
          match args_groups args with
          | .error e => ⟨r.1, none, some e⟩
          | .ok gs =>
              match turn_off_filter args gs (all_devices.map Prod.fst) with
              | .error e => ⟨r.1, none, some e⟩
              | .ok offs =>
                  let r2 := run_writes 0 offs
                  ⟨r.1 ++ r2.1, none, r2.2⟩
  | .print =>
      match run_status raws args [] with
      | (es, .error e) => ⟨es, none, some e⟩
      | (es, .ok ps) =>
          match ps with
          | [] => ⟨es, none, some .valueError⟩
          | _ => ⟨es, some (.table (print_status_render ps)), none⟩
  | .status =>
      match args with
      | [a] =>
          match get_state a raws with
          | (es, .error e) => ⟨es, none, some e⟩
          | (es, .ok v) => ⟨es, some (.scalar v), none⟩
      | _ =>
          match run_status raws args [] with
          | (es, .error e) => ⟨es, none, some e⟩
          | (es, .ok ps) => ⟨es, some (.dict ps), none⟩
  | .numericSet =>
      match parseFloat action with
      | none => ⟨[], none, some .valueError⟩
      | some v =>
          let r := run_writes v args
          ⟨r.1, none, r.2⟩

/-- Spec-side description of the `just` turn-off set, following the claim's
words: every configured device not in the exclusion set, not in the
argument list, whose own group equals the group of some argument device. -/
def just_off_spec (args : List String) : List String :=
  (all_devices.map Prod.fst).filter fun d =>
    !exclude.contains d && !args.contains d &&
      args.any (fun a => devGroup d == devGroup a)

/-- Spec-side description of one table row: name left-aligned in the column
of width `width`, the separator, the state left-aligned to width 3, and the
literal trailing space of the source's f-string. -/
def render_row (width : Nat) (p : String × ℚ) : String :=
  pyPad p.1 width ++ ": " ++ pyPad (pyStr p.2) 3 ++ " "

/-- Spec-side newline separation with no trailing newline. -/
def joinLines : List String → String
  | [] => ""
  | [r] => r
  | r :: rest => r ++ "\n" ++ joinLines rest

/-- Plain concatenation of a list of strings (proof helper relating the
accumulating loop of `print_status` to `joinLines`). -/
def joinAll : List String → String
  | [] => ""
  | s :: rest => s ++ joinAll rest

/-- Claim `C1`: the pin value codec is an involution on booleans: for `v` and `d`
in `{0,1}`, `process_pin (process_pin v d) d = v`. -/
theorem process_pin_involution (v d : ℤ) (hv : v = 0 ∨ v = 1)
    (hd : d = 0 ∨ d = 1) :
    process_pin (process_pin (v : ℚ) d) d = (v : ℚ) := by
  rcases hv with rfl | rfl <;> rcases hd with rfl | rfl <;> decide

/-- Witness for `C1` at `v = 1`, `d = 1`. -/
theorem process_pin_involution_witness :
    ((1 : ℤ) = 0 ∨ (1 : ℤ) = 1) ∧ process_pin (process_pin (1 : ℚ) 1) 1 = 1 :=
  ⟨Or.inr rfl, process_pin_involution 1 1 (Or.inr rfl) (Or.inr rfl)⟩

theorem take_one_of_take_two {l : List Char} {a b : Char}
    (h : l.take 2 = [a, b]) : l.take 1 = [a] := by
  cases l with
  | nil => simp at h
  | cons c t =>
      simp [List.take_succ_cons] at h ⊢
      exact h.1

/-- The exclusion-override test `action[:1] in ("s", "p")` of
`choose_devices` holds exactly when the dispatcher chain of `take_action`
would select the print or the status branch. -/
theorem isSP_iff_classify (action : String) :
    isSP action = true ↔
      (classify action = ActionKind.print ∨ classify action = ActionKind.status) := by
  by_cases h1 : action.data.take 1 = ['f']
  · simp [isSP, classify, h1]
  · by_cases h2 : action.data.take 2 = ['o', 'f']
    · have h2' := take_one_of_take_two h2
      simp [isSP, classify, h1, h2, h2']
    · by_cases h3 : action.data = ['o', 'n']
      · have h3' : action.data.take 1 = ['o'] := by rw [h3]; rfl
        simp [isSP, classify, h1, h2, h3, h3']
      · by_cases h4 : action.data.take 1 = ['j']
        · simp [isSP, classify, h1, h2, h3, h4]
        · by_cases h5 : action.data.take 1 = ['p']
          · simp [isSP, classify, h1, h2, h3, h4, h5]
          · by_cases h6 : action.data.take 1 = ['s']
            · simp [isSP, classify, h1, h2, h3, h4, h5, h6]
            · simp [isSP, classify, h1, h2, h3, h4, h5, h6]

theorem isSP_eq_decide (action : String) :
    isSP action =
      decide (classify action = ActionKind.print ∨ classify action = ActionKind.status) := by
  cases hb : isSP action
  · exact (decide_eq_false ((isSP_iff_classify action).not.mp (by simp [hb]))).symm
  · exact (decide_eq_true ((isSP_iff_classify action).mp hb)).symm

/-- Claim `C3`: with a token list starting with `"all"` or `"a"`, the resolver
returns every configured device name except the excluded ones, unless the
action token denotes print or status, in which case the excluded ones are
included too; the remaining tokens are ignored. -/
theorem choose_devices_wildcard (action w : String) (rest : List String)
    (hw : w = "all" ∨ w = "a") :
    choose_devices action (w :: rest) =
      some (if classify action = ActionKind.print ∨ classify action = ActionKind.status
            then all_devices.map Prod.fst
            else (all_devices.map Prod.fst).filter fun x => !exclude.contains x) := by
  simp only [choose_devices]
  rw [if_pos hw]
  cases hb : isSP action
  · have hps := (isSP_iff_classify action).not.mp (by simp [hb])
    rw [if_neg hps]
    simp [hb]
  · have hps := (isSP_iff_classify action).mp hb
    rw [if_pos hps]
    simp [hb]

/-- Witness for `C3`: the wildcard with a write action omits the sensors,
with a status action it includes them, and a trailing token changes
nothing. -/
theorem choose_devices_wildcard_witness :
    (("all" : String) = "all" ∨ ("all" : String) = "a") ∧
      choose_devices "on" ["all", "junk"] =
        some (if classify "on" = ActionKind.print ∨ classify "on" = ActionKind.status
              then all_devices.map Prod.fst
              else (all_devices.map Prod.fst).filter fun x => !exclude.contains x) :=
  ⟨Or.inl rfl, choose_devices_wildcard "on" "all" ["junk"] (Or.inl rfl)⟩

theorem beq_comm_opt (a b : Option String) : (a == b) = (b == a) := by
  by_cases h : a = b
  · rw [h]
  · have h2 : ¬b = a := fun hh => h hh.symm
    rw [beq_eq_false_iff_ne.mpr h, beq_eq_false_iff_ne.mpr h2]

/-- Claim `C5`: with a token list starting with a configured group name, the
resolver returns exactly the devices whose group attribute equals that
name, in configuration-table order, excluded devices filtered out unless
the action denotes print or status; the remaining tokens are ignored. -/
theorem choose_devices_group (action g : String) (rest : List String)
    (hg : g ∈ groups) :
    choose_devices action (g :: rest) =
      some ((all_devices.map Prod.fst).filter fun x =>
        (devGroup x == some g) &&
          (!exclude.contains x ||
            decide (classify action = ActionKind.print ∨
              classify action = ActionKind.status))) := by
  have hsplit : g = "bedroom" ∨ g = "kitchen" := by
    simpa [groups] using hg
  have hga : ¬(g = "all" ∨ g = "a") := by
    rcases hsplit with rfl | rfl <;> decide
  simp only [choose_devices]
  rw [if_neg hga, if_pos hg]
  refine congrArg some (List.filter_congr ?_)
  intro x _
  rw [beq_comm_opt, isSP_eq_decide]

/-- Witness for `C5`: resolving the group `"kitchen"` with a write action
picks exactly the kitchen devices, ignoring a trailing token. -/
theorem choose_devices_group_witness :
    ("kitchen" : String) ∈ groups ∧
      choose_devices "on" ["kitchen", "junk"] =
        some ((all_devices.map Prod.fst).filter fun x =>
          (devGroup x == some "kitchen") &&
            (!exclude.contains x ||
              decide (classify "on" = ActionKind.print ∨
                classify "on" = ActionKind.status))) :=
  ⟨by decide, choose_devices_group "on" "kitchen" ["junk"] (by decide)⟩

/-- A successful lookup in the configuration table is one of the four
configured devices. -/
theorem lookup_cases (device : String) (cfg : DeviceConfig)
    (h : List.lookup device all_devices = some cfg) :
    (device = "bedroom_light" ∧ cfg = ⟨"V3", "<auth_token>", some 0, some "bedroom"⟩) ∨
    (device = "kitchen_light" ∧ cfg = ⟨"d2", "<auth_token>", some 1, some "kitchen"⟩) ∨
    (device = "temperature" ∧ cfg = ⟨"V6", "<auth_token>", none, none⟩) ∨
    (device = "humidity" ∧ cfg = ⟨"V5", "<auth_token>", none, none⟩) := by
  simp only [all_devices, List.lookup_cons, List.lookup_nil] at h
  by_cases h1 : device = "bedroom_light"
  · simp [h1] at h
    exact Or.inl ⟨h1, h.symm⟩
  · rw [beq_eq_false_iff_ne.mpr h1] at h
    by_cases h2 : device = "kitchen_light"
    · simp [h2] at h
      exact Or.inr (Or.inl ⟨h2, h.symm⟩)
    · rw [beq_eq_false_iff_ne.mpr h2] at h
      by_cases h3 : device = "temperature"
      · simp [h3] at h
        exact Or.inr (Or.inr (Or.inl ⟨h3, h.symm⟩))
      · rw [beq_eq_false_iff_ne.mpr h3] at h
        by_cases h4 : device = "humidity"
        · simp [h4] at h
          exact Or.inr (Or.inr (Or.inr ⟨h4, h.symm⟩))
        · rw [beq_eq_false_iff_ne.mpr h4] at h
          exact absurd h (by simp)

/-- Claim `C2`: on read, `get_state` applies the default-aware inversion exactly
when the decoded whole-number value is 0 or 1 and the device is not in the
exclusion set; in every other case the decoded raw value is returned
unchanged. -/
theorem get_state_inversion_iff (device : String) (cfg : DeviceConfig)
    (raws : String → ℚ) (h : List.lookup device all_devices = some cfg) :
    (¬(process_pin (raws device) 0 = 0 ∨ process_pin (raws device) 0 = 1) ∨
        device ∈ exclude →
      get_state device raws =
        ([Event.read device], Except.ok (process_pin (raws device) 0))) ∧
    ((process_pin (raws device) 0 = 0 ∨ process_pin (raws device) 0 = 1) →
      device ∉ exclude →
      ∃ d, cfg.default = some d ∧
        get_state device raws =
          ([Event.read device],
            Except.ok (process_pin (process_pin (raws device) 0) d))) := by
  constructor
  · intro hcond
    simp only [get_state, h, get_state_val]
    rw [if_pos hcond]
  · intro h01 hexcl
    have hdef : ∃ d : ℤ, cfg.default = some d := by
      rcases lookup_cases device cfg h with ⟨hd, hc⟩ | ⟨hd, hc⟩ | ⟨hd, hc⟩ | ⟨hd, hc⟩
      · exact ⟨0, by rw [hc]⟩
      · exact ⟨1, by rw [hc]⟩
      · exact absurd (show device ∈ exclude by rw [hd]; decide) hexcl
      · exact absurd (show device ∈ exclude by rw [hd]; decide) hexcl
    obtain ⟨d, hd⟩ := hdef
    have hcond : ¬(¬(process_pin (raws device) 0 = 0 ∨
        process_pin (raws device) 0 = 1) ∨ device ∈ exclude) := by
      rintro (hn | he)
      · exact hn h01
      · exact hexcl he
    refine ⟨d, hd, ?_⟩
    simp only [get_state, h, get_state_val]
    rw [if_neg hcond, hd]

/-- Witness for `C2` at `kitchen_light` with raw payload 1: decoded value 1
is boolean and the device is not excluded, so the inversion applies and the
read returns logical 0. -/
theorem get_state_inversion_iff_witness :
    List.lookup "kitchen_light" all_devices =
        some ⟨"d2", "<auth_token>", some 1, some "kitchen"⟩ ∧
      get_state "kitchen_light" (fun _ => 1) =
        ([Event.read "kitchen_light"], Except.ok 0) := by
  refine ⟨by decide, ?_⟩
  obtain ⟨d, hd, he⟩ :=
    (get_state_inversion_iff "kitchen_light"
      ⟨"d2", "<auth_token>", some 1, some "kitchen"⟩ (fun _ => 1)
      (by decide)).2 (by decide) (by decide)
  have hd1 : some (1 : ℤ) = some d := hd
  obtain rfl : (1 : ℤ) = d := Option.some.inj hd1
  exact he.trans (by decide)

/-- Claim `C6`: flipping a non-excluded device with default flag 1 whose current
read resolves to logical 0 issues a write whose logical value is 1 and
whose encoded wire value is 0. -/
theorem flip_writes_one_encoded_zero (device : String) (cfg : DeviceConfig)
    (raws : String → ℚ) (h : List.lookup device all_devices = some cfg)
    (hdef : cfg.default = some 1) (_hexcl : device ∉ exclude)
    (hread : get_state_val device cfg (raws device) = .ok 0) :
    flip_state device raws =
      ([Event.read device, Event.write device 1 0], none) := by
  simp only [flip_state, get_state, h, hread, set_to_state, hdef]
  norm_num [process_pin]
  decide

/-- The prefix chain of `take_action` selects exactly the branch named by
`classify`. -/
theorem take_action_eq_dispatch (pf : String → Option ℚ) (action : String)
    (args : List String) (raws : String → ℚ) :
    take_action pf action args raws =
      dispatch pf (classify action) action args raws := by
  unfold take_action dispatch classify
  by_cases h1 : action.data.take 1 = ['f']
  · rw [if_pos h1, if_pos h1]
  · rw [if_neg h1, if_neg h1]
    by_cases h2 : action.data.take 2 = ['o', 'f']
    · rw [if_pos h2, if_pos h2]
    · rw [if_neg h2, if_neg h2]
      by_cases h3 : action.data = ['o', 'n']
      · rw [if_pos h3, if_pos h3]
      · rw [if_neg h3, if_neg h3]
        by_cases h4 : action.data.take 1 = ['j']
        · rw [if_pos h4, if_pos h4]
        · rw [if_neg h4, if_neg h4]
          by_cases h5 : action.data.take 1 = ['p']
          · rw [if_pos h5, if_pos h5]
          · rw [if_neg h5, if_neg h5]
            by_cases h6 : action.data.take 1 = ['s']
            · rw [if_pos h6, if_pos h6]
            · rw [if_neg h6, if_neg h6]

/-- Claim `C9`: an action token that selects no recognized prefix and does not
parse as a number aborts the dispatch with a fatal parse error, before any
request is issued. -/
theorem unknown_action_fatal (pf : String → Option ℚ) (action : String)
    (args : List String) (raws : String → ℚ)
    (hk : classify action = ActionKind.numericSet) (hp : pf action = none) :
    take_action pf action args raws = ⟨[], none, some .valueError⟩ := by
  rw [take_action_eq_dispatch, hk]
  simp only [dispatch, hp]

/-- Witness for `C9` at the token `"xyz"`, which matches no prefix and is
rejected by the number parser. -/
theorem unknown_action_fatal_witness :
    classify "xyz" = ActionKind.numericSet ∧
      take_action (fun _ => none) "xyz" ["bedroom_light"] (fun _ => 0) =
        ⟨[], none, some .valueError⟩ :=
  ⟨by decide,
    unknown_action_fatal (fun _ => none) "xyz" ["bedroom_light"] (fun _ => 0)
      (by decide) rfl⟩

/-- A device whose configuration exists and either has a default or is
excluded can always be read: `get_state` issues the single read request and
returns a value. -/
theorem get_state_ok (a : String) (raws : String → ℚ)
    (h : ∃ cfg, List.lookup a all_devices = some cfg ∧
      (cfg.default ≠ none ∨ a ∈ exclude)) :
    ∃ v, get_state a raws = ([Event.read a], .ok v) := by
  obtain ⟨cfg, hl, hd⟩ := h
  simp only [get_state, hl, get_state_val]
  by_cases hc : ¬(process_pin (raws a) 0 = 0 ∨ process_pin (raws a) 0 = 1) ∨
      a ∈ exclude
  · exact ⟨_, by rw [if_pos hc]⟩
  · rcases hd with hd | he
    · cases hdd : cfg.default with
      | none => exact absurd hdd hd
      | some d =>
          exact ⟨process_pin (process_pin (raws a) 0) d, by rw [if_neg hc]⟩
    · exact absurd (Or.inr he) hc

/-- Assigning a fresh key into a Python dict appends it at the end. -/
theorem dictInsert_of_not_mem (k : String) (v : ℚ) (l : List (String × ℚ))
    (h : k ∉ l.map Prod.fst) : dictInsert k v l = l ++ [(k, v)] := by
  induction l with
  | nil => rfl
  | cons p rest ih =>
      obtain ⟨k2, v2⟩ := p
      simp only [List.map_cons, List.mem_cons] at h
      push_neg at h
      simp only [dictInsert]
      rw [if_neg h.1, ih h.2]
      simp

/-- Running `get_status_as_dict` over readable, pairwise distinct devices: one read
request per device in order, and one dict entry per device in order. -/
theorem run_status_ok (raws : String → ℚ) :
    ∀ (args : List String) (acc : List (String × ℚ)),
      (∀ a ∈ args, ∃ cfg, List.lookup a all_devices = some cfg ∧
        (cfg.default ≠ none ∨ a ∈ exclude)) →
      (acc.map Prod.fst ++ args).Nodup →
      ∃ ps, run_status raws args acc = (args.map Event.read, .ok ps) ∧
        ps.map Prod.fst = acc.map Prod.fst ++ args
  | [], acc, _, _ => ⟨acc, by simp [run_status]⟩
  | d :: ds, acc, hok, hnd => by
      obtain ⟨v, hv⟩ := get_state_ok d raws (hok d (List.mem_cons_self d ds))
      have hdnot : d ∉ acc.map Prod.fst := by
        rw [List.nodup_append] at hnd
        exact fun hmem => hnd.2.2 hmem (List.mem_cons_self d ds)
      have hacc' : (((dictInsert d v acc).map Prod.fst) ++ ds).Nodup := by
        rw [dictInsert_of_not_mem d v acc hdnot]
        simp only [List.map_append, List.map_cons, List.map_nil]
        rw [List.append_assoc]
        simpa using hnd
      obtain ⟨ps, hps, hkeys⟩ := run_status_ok raws ds (dictInsert d v acc)
        (fun a ha => hok a (List.mem_cons_of_mem d ha)) hacc'
      refine ⟨ps, ?_, ?_⟩
      · simp [run_status, hv, hps]
      · rw [hkeys, dictInsert_of_not_mem d v acc hdnot]
        simp

/-- Claim `C7`: the status action outputs a bare scalar when exactly one device
is resolved, and otherwise a name-to-state mapping containing exactly the
resolved devices. -/
theorem status_output_shape (pf : String → Option ℚ) (action : String)
    (args : List String) (raws : String → ℚ)
    (hact : classify action = ActionKind.status)
    (hok : ∀ a ∈ args, ∃ cfg, List.lookup a all_devices = some cfg ∧
      (cfg.default ≠ none ∨ a ∈ exclude))
    (hnd : args.Nodup) :
    (∀ a, args = [a] →
      ∃ v, take_action pf action args raws =
        ⟨[Event.read a], some (Output.scalar v), none⟩) ∧
    (args.length ≠ 1 →
      ∃ ps, take_action pf action args raws =
          ⟨args.map Event.read, some (Output.dict ps), none⟩ ∧
        ps.map Prod.fst = args) := by
  rw [take_action_eq_dispatch, hact]
  constructor
  · rintro a rfl
    obtain ⟨v, hv⟩ := get_state_ok a raws (hok a (by simp))
    exact ⟨v, by simp [dispatch, hv]⟩
  · intro hlen
    obtain ⟨ps, hps, hkeys⟩ := run_status_ok raws args [] hok (by simpa using hnd)
    refine ⟨ps, ?_, by simpa using hkeys⟩
    cases args with
    | nil => simp [dispatch, hps]
    | cons a rest =>
        cases rest with
        | nil => exact (hlen (by simp)).elim
        | cons b rest2 => simp [dispatch, hps]

/-- Witness for `C7`: reading the status of the two (excluded but readable)
sensors produces the two-entry mapping. -/
theorem status_output_shape_witness :
    (["temperature", "humidity"] : List String).Nodup ∧
      ∃ ps, take_action (fun _ => none) "s" ["temperature", "humidity"]
            (fun _ => 20) =
          ⟨["temperature", "humidity"].map Event.read,
            some (Output.dict ps), none⟩ ∧
        ps.map Prod.fst = ["temperature", "humidity"] :=
  ⟨by decide,
    (status_output_shape (fun _ => none) "s" ["temperature", "humidity"]
        (fun _ => 20) (by decide)
        (by
          intro a ha
          simp only [List.mem_cons, List.not_mem_nil, or_false] at ha
          rcases ha with rfl | rfl
          · exact ⟨⟨"V6", "<auth_token>", none, none⟩, by decide,
              Or.inr (by decide)⟩
          · exact ⟨⟨"V5", "<auth_token>", none, none⟩, by decide,
              Or.inr (by decide)⟩)
        (by decide)).2 (by decide)⟩

/-- A write to a device whose configuration carries a default succeeds and
issues exactly the encoded update request. -/
theorem set_to_state_ok (a : String) (v : ℚ) (cfg : DeviceConfig) (da : ℤ)
    (hl : List.lookup a all_devices = some cfg) (hd : cfg.default = some da) :
    set_to_state a v = .ok (.write a v (process_pin v da)) := by
  simp [set_to_state, hl, hd]

/-- Writing one value to a list of devices that all carry defaults issues
one update request per device, in order, and no error. -/
theorem run_writes_ok (v : ℚ) :
    ∀ l : List String,
      (∀ a ∈ l, ∃ cfg da, List.lookup a all_devices = some cfg ∧
        cfg.default = some da) →
      run_writes v l =
        (l.map (fun a => Event.write a v (process_pin v (devDefault a))), none)
  | [], _ => rfl
  | d :: ds, h => by
      obtain ⟨cfg, da, hl, hd⟩ := h d (List.mem_cons_self d ds)
      have hdd : devDefault d = da := by simp [devDefault, hl, hd]
      have ih := run_writes_ok v ds (fun a ha => h a (List.mem_cons_of_mem d ha))
      simp [run_writes, set_to_state_ok d v cfg da hl hd, ih, hdd]

/-- The inner comprehension of the `just` branch succeeds on arguments that
all carry groups, returning their groups in order. -/
theorem args_groups_ok :
    ∀ l : List String,
      (∀ a ∈ l, ∃ cfg, List.lookup a all_devices = some cfg ∧
        ∃ g, cfg.group = some g) →
      args_groups l = .ok (l.filterMap devGroup)
  | [], _ => rfl
  | d :: ds, h => by
      obtain ⟨cfg, hl, g, hg⟩ := h d (List.mem_cons_self d ds)
      have hdg : devGroup d = some g := by simp [devGroup, hl, hg]
      have ih := args_groups_ok ds (fun a ha => h a (List.mem_cons_of_mem d ha))
      simp [args_groups, hl, hg, ih, List.filterMap_cons_some hdg, Except.map]

/-- Membership of a group name among the argument devices' groups, stated
the way the claim words it: some argument device has that group. -/
theorem filterMap_devGroup_contains (g : String) :
    ∀ l : List String,
      ((l.filterMap devGroup).contains g) =
        l.any (fun a => some g == devGroup a)
  | [] => rfl
  | a :: ds => by
      have ih := filterMap_devGroup_contains g ds
      cases hga : devGroup a with
      | none =>
          rw [List.filterMap_cons_none hga, List.any_cons, hga, ih,
            show (some g == (none : Option String)) = false from rfl,
            Bool.false_or]
      | some ga =>
          rw [List.filterMap_cons_some hga, List.any_cons, hga,
            List.contains_cons, ih,
            show (some g == some ga) = (g == ga) from rfl]

/-- The candidate comprehension of the `just` branch, run over the concrete
configuration table with the argument devices' groups, computes exactly the
claim's turn-off set. -/
theorem turn_off_eq_spec (args : List String) :
    turn_off_filter args (args.filterMap devGroup) (all_devices.map Prod.fst) =
      .ok (just_off_spec args) := by
  have hb := (filterMap_devGroup_contains "bedroom" args).symm
  have hk := (filterMap_devGroup_contains "kitchen" args).symm
  simp only [just_off_spec,
    show all_devices.map Prod.fst =
      ["bedroom_light", "kitchen_light", "temperature", "humidity"] from rfl,
    turn_off_filter, List.filter_cons, List.filter_nil,
    show List.lookup "bedroom_light" all_devices =
      some ⟨"V3", "<auth_token>", some 0, some "bedroom"⟩ from rfl,
    show List.lookup "kitchen_light" all_devices =
      some ⟨"d2", "<auth_token>", some 1, some "kitchen"⟩ from rfl,
    show exclude.contains "bedroom_light" = false from rfl,
    show exclude.contains "kitchen_light" = false from rfl,
    show exclude.contains "temperature" = true from rfl,
    show exclude.contains "humidity" = true from rfl,
    show devGroup "bedroom_light" = some "bedroom" from rfl,
    show devGroup "kitchen_light" = some "kitchen" from rfl]
  rw [← hb, ← hk]
  by_cases h1 : (args.any fun a => some "bedroom" == devGroup a) <;>
    by_cases h2 : (args.any fun a => some "kitchen" == devGroup a) <;>
      by_cases h3 : "bedroom_light" ∈ args <;>
        by_cases h4 : "kitchen_light" ∈ args <;>
          simp [h1, h2, h3, h4, Except.map]

/-- Every device in the claim's turn-off set is configured with a default. -/
theorem just_off_spec_defaults (args : List String) :
    ∀ d ∈ just_off_spec args,
      ∃ cfg da, List.lookup d all_devices = some cfg ∧ cfg.default = some da := by
  intro d hd
  have hdk : d ∈ all_devices.map Prod.fst := List.mem_of_mem_filter hd
  have hdp := List.of_mem_filter hd
  simp only [all_devices, List.map_cons, List.map_nil, List.mem_cons,
    List.not_mem_nil, or_false] at hdk
  rcases hdk with rfl | rfl | rfl | rfl
  · exact ⟨⟨"V3", "<auth_token>", some 0, some "bedroom"⟩, 0, rfl, rfl⟩
  · exact ⟨⟨"d2", "<auth_token>", some 1, some "kitchen"⟩, 1, rfl, rfl⟩
  · simp at hdp
    exact absurd (show ("temperature" : String) ∈ exclude from by decide) hdp.1.1
  · simp at hdp
    exact absurd (show ("humidity" : String) ∈ exclude from by decide) hdp.1.1

/-- Claim `C4`: the `just` action writes logical 1 to every device of the
explicit argument list and logical 0 to exactly the devices that are not
excluded, not among the arguments, and share a group with some argument
device; nothing else is written. -/
theorem just_action_writes (pf : String → Option ℚ) (action : String)
    (args : List String) (raws : String → ℚ)
    (hact : classify action = ActionKind.just)
    (h : ∀ a ∈ args, ∃ cfg, List.lookup a all_devices = some cfg ∧
      (∃ da, cfg.default = some da) ∧ (∃ g, cfg.group = some g)) :
    take_action pf action args raws =
      ⟨args.map (fun a => Event.write a 1 (process_pin 1 (devDefault a))) ++
        (just_off_spec args).map
          (fun d => Event.write d 0 (process_pin 0 (devDefault d))),
       none, none⟩ := by
  rw [take_action_eq_dispatch, hact]
  have hw1 := run_writes_ok 1 args (fun a ha =>
    let ⟨cfg, hl, ⟨da, hd⟩, _⟩ := h a ha
    ⟨cfg, da, hl, hd⟩)
  have hg := args_groups_ok args (fun a ha =>
    let ⟨cfg, hl, _, hgr⟩ := h a ha
    ⟨cfg, hl, hgr⟩)
  have ht := turn_off_eq_spec args
  have hw2 := run_writes_ok 0 (just_off_spec args) (just_off_spec_defaults args)
  simp only [dispatch, hw1, hg, ht, hw2]

/-- Witness for `C4`: `just kitchen_light` writes logical 1 (encoded 0,
default 1) to the kitchen light; no other non-excluded device shares the
kitchen group, so the turn-off set is empty. -/
theorem just_action_writes_witness :
    classify "just" = ActionKind.just ∧
      take_action (fun _ => none) "just" ["kitchen_light"] (fun _ => 0) =
        ⟨["kitchen_light"].map
            (fun a => Event.write a 1 (process_pin 1 (devDefault a))) ++
          (just_off_spec ["kitchen_light"]).map
            (fun d => Event.write d 0 (process_pin 0 (devDefault d))),
         none, none⟩ :=
  ⟨by decide,
    just_action_writes (fun _ => none) "just" ["kitchen_light"] (fun _ => 0)
      (by decide)
      (by
        intro a ha
        simp only [List.mem_cons, List.not_mem_nil, or_false] at ha
        subst ha
        exact ⟨⟨"d2", "<auth_token>", some 1, some "kitchen"⟩, rfl,
          ⟨1, rfl⟩, ⟨"kitchen", rfl⟩⟩)⟩

/-- The table-accumulating loop of `print_status` concatenates one row plus
newline per dict entry after the accumulator. -/
theorem foldl_render (w : Nat) :
    ∀ (pairs : List (String × ℚ)) (t : String),
      pairs.foldl
        (fun t p => t ++ pyPad p.1 w ++ ": " ++ pyPad (pyStr p.2) 3 ++ " \n") t =
        t ++ joinAll (pairs.map (fun p => render_row w p ++ "\n"))
  | [], t => by simp [joinAll]
  | p :: ps, t => by
      rw [List.foldl_cons, foldl_render w ps, List.map_cons]
      simp only [joinAll, render_row,
        show (" \n" : String) = " " ++ "\n" from rfl, String.append_assoc]

/-- A concatenation of newline-terminated rows is a nonempty string. -/
theorem joinAll_newline_ne_nil :
    ∀ (rows : List String), rows ≠ [] →
      (joinAll (rows.map (· ++ "\n"))).data ≠ []
  | [], h => absurd rfl h
  | r :: rest, _ => by
      simp only [List.map_cons, joinAll, String.data_append]
      intro hc
      simp [show ("\n" : String).data = ['\n'] from rfl] at hc

/-- Dropping the final character of a concatenation of newline-terminated
rows yields exactly the newline-separated rows with no trailing newline. -/
theorem joinAll_dropLast_eq_joinLines :
    ∀ (rows : List String), rows ≠ [] →
      String.mk ((joinAll (rows.map (· ++ "\n"))).data.dropLast) = joinLines rows
  | [], h => absurd rfl h
  | [r], _ => by
      simp only [List.map_cons, List.map_nil, joinAll, String.append_empty,
        joinLines]
      rw [String.data_append, show ("\n" : String).data = ['\n'] from rfl,
        List.dropLast_concat]
  | r :: s :: rest, _ => by
      have ih := joinAll_dropLast_eq_joinLines (s :: rest) (by simp)
      rw [List.map_cons,
        show joinAll ((r ++ "\n") :: (s :: rest).map (· ++ "\n")) =
          (r ++ "\n") ++ joinAll ((s :: rest).map (· ++ "\n")) from rfl,
        String.data_append,
        List.dropLast_append_of_ne_nil _ (joinAll_newline_ne_nil (s :: rest) (by simp)),
        show joinLines (r :: s :: rest) = (r ++ "\n") ++ joinLines (s :: rest) from rfl,
        ← ih]
      rfl

/-- Claim `C8`: for a non-empty status dict the rendered table is the
newline-separated list of rows, one per device in order, each row carrying
the name left-aligned to the longest name plus one and the state
left-aligned to width 3, with no trailing blank line. -/
theorem print_status_table_rows (pairs : List (String × ℚ)) (h : pairs ≠ []) :
    print_status_render pairs =
      joinLines (pairs.map (render_row (maxNameLen pairs + 1))) := by
  have hrows : pairs.map (render_row (maxNameLen pairs + 1)) ≠ [] := by
    simpa using h
  show String.mk ((pairs.foldl
      (fun t p => t ++ pyPad p.1 (maxNameLen pairs + 1) ++ ": " ++
        pyPad (pyStr p.2) 3 ++ " \n") "").data.dropLast) =
    joinLines (pairs.map (render_row (maxNameLen pairs + 1)))
  rw [foldl_render (maxNameLen pairs + 1) pairs "", String.empty_append,
    show (fun p : String × ℚ => render_row (maxNameLen pairs + 1) p ++ "\n") =
      ((· ++ "\n") ∘ render_row (maxNameLen pairs + 1)) from rfl,
    ← List.map_map]
  exact joinAll_dropLast_eq_joinLines _ hrows

/-- Witness for `C8` at the dict `{"a": 1, "bb": 0}`: two rows, name column
width 3, and the exact rendered string. -/
theorem print_status_table_rows_witness :
    ([("a", (1 : ℚ)), ("bb", 0)] : List (String × ℚ)) ≠ [] ∧
      print_status_render [("a", (1 : ℚ)), ("bb", 0)] =
        joinLines ([("a", (1 : ℚ)), ("bb", 0)].map
          (render_row (maxNameLen [("a", (1 : ℚ)), ("bb", 0)] + 1))) ∧
      print_status_render [("a", (1 : ℚ)), ("bb", 0)] = "a  : 1   \nbb : 0   " :=
  ⟨by decide, print_status_table_rows [("a", (1 : ℚ)), ("bb", 0)] (by decide),
    by decide⟩

/-- A successful `set_to_state` call targets the looked-up device: the
update request carries that device, the given logical value, and its
encoding under the device's default. -/
theorem set_to_state_ok_inv (a : String) (v : ℚ) (e : Event)
    (h : set_to_state a v = .ok e) :
    ∃ cfg da, List.lookup a all_devices = some cfg ∧ cfg.default = some da ∧
      e = .write a v (process_pin v da) := by
  cases hl : List.lookup a all_devices with
  | none => simp [set_to_state, hl] at h
  | some cfg =>
      cases hdd : cfg.default with
      | none => simp [set_to_state, hl, hdd] at h
      | some da =>
          simp only [set_to_state, hl, hdd] at h
          exact ⟨cfg, da, rfl, hdd, (Except.ok.inj h).symm⟩

/-- Every event issued by a write loop comes from a successful
`set_to_state` call. -/
theorem run_writes_events (v : ℚ) :
    ∀ (l : List String) (e : Event), e ∈ (run_writes v l).1 →
      ∃ a, set_to_state a v = .ok e
  | [], e, he => absurd he (by simp [run_writes])
  | d :: ds, e, he => by
      cases hs : set_to_state d v with
      | error err => simp [run_writes, hs] at he
      | ok ev =>
          rcases hrw : run_writes v ds with ⟨es, err⟩
          simp only [run_writes, hs, hrw] at he
          rcases List.mem_cons.mp he with rfl | hrest
          · exact ⟨d, hs⟩
          · exact run_writes_events v ds e (by rw [hrw]; exact hrest)

/-- Every event issued by a flip is the read of that device or comes from a
successful `set_to_state` call. -/
theorem flip_state_events (device : String) (raws : String → ℚ) :
    ∀ e ∈ (flip_state device raws).1,
      e = .read device ∨ ∃ v', set_to_state device v' = .ok e := by
  intro e he
  cases hl : List.lookup device all_devices with
  | none => simp [flip_state, get_state, hl] at he
  | some cfg =>
      cases hv : get_state_val device cfg (raws device) with
      | error err =>
          simp only [flip_state, get_state, hl, hv] at he
          simp at he
          exact Or.inl he
      | ok s =>
          by_cases hden : s.den = 1
          · cases hs : set_to_state device ((Int.xor s.num 1 : ℤ) : ℚ) with
            | error err =>
                simp only [flip_state, get_state, hl, hv, if_pos hden, hs] at he
                simp at he
                exact Or.inl he
            | ok ev =>
                simp only [flip_state, get_state, hl, hv, if_pos hden, hs] at he
                simp at he
                rcases he with rfl | rfl
                · exact Or.inl rfl
                · exact Or.inr ⟨_, hs⟩
          · simp only [flip_state, get_state, hl, hv, if_neg hden] at he
            simp at he
            exact Or.inl he

/-- Every event issued by a flip loop is a read or comes from a successful
`set_to_state` call. -/
theorem run_flips_events (raws : String → ℚ) :
    ∀ (l : List String) (e : Event), e ∈ (run_flips raws l).1 →
      (∃ a, e = .read a) ∨ ∃ a v', set_to_state a v' = .ok e
  | [], e, he => absurd he (by simp [run_flips])
  | d :: ds, e, he => by
      rcases hf : flip_state d raws with ⟨es, err⟩
      cases err with
      | some err2 =>
          simp only [run_flips, hf] at he
          rcases flip_state_events d raws e (by rw [hf]; exact he) with h | ⟨v', h⟩
          · exact Or.inl ⟨d, h⟩
          · exact Or.inr ⟨d, v', h⟩
      | none =>
          rcases hrf : run_flips raws ds with ⟨es2, err2⟩
          simp only [run_flips, hf, hrf] at he
          rcases List.mem_append.mp he with hes | hes2
          · rcases flip_state_events d raws e (by rw [hf]; exact hes) with h | ⟨v', h⟩
            · exact Or.inl ⟨d, h⟩
            · exact Or.inr ⟨d, v', h⟩
          · exact run_flips_events raws ds e (by rw [hrf]; exact hes2)

/-- Every event issued by a single read is the read of that device. -/
theorem get_state_events (device : String) (raws : String → ℚ) :
    ∀ e ∈ (get_state device raws).1, e = .read device := by
  intro e he
  cases hl : List.lookup device all_devices with
  | none => simp [get_state, hl] at he
  | some cfg =>
      simp [get_state, hl] at he
      exact he

/-- Every event issued by a status loop is a read. -/
theorem run_status_events (raws : String → ℚ) :
    ∀ (l : List String) (acc : List (String × ℚ)) (e : Event),
      e ∈ (run_status raws l acc).1 → ∃ a, e = .read a
  | [], _, e, he => absurd he (by simp [run_status])
  | d :: ds, acc, e, he => by
      rcases hg : get_state d raws with ⟨es, r⟩
      cases r with
      | error err =>
          simp only [run_status, hg] at he
          exact ⟨d, get_state_events d raws e (by rw [hg]; exact he)⟩
      | ok v =>
          rcases hrs : run_status raws ds (dictInsert d v acc) with ⟨es2, r2⟩
          simp only [run_status, hg, hrs] at he
          rcases List.mem_append.mp he with hes | hes2
          · exact ⟨d, get_state_events d raws e (by rw [hg]; exact hes)⟩
          · exact run_status_events raws ds (dictInsert d v acc) e
              (by rw [hrs]; exact hes2)

/-- Every event in any `take_action` trace is a read or comes from a
successful `set_to_state` call. -/
theorem take_action_events (pf : String → Option ℚ) (action : String)
    (args : List String) (raws : String → ℚ) :
    ∀ e ∈ (take_action pf action args raws).events,
      (∃ a, e = .read a) ∨ ∃ a v', set_to_state a v' = .ok e := by
  intro e he
  rw [take_action_eq_dispatch] at he
  cases hcl : classify action with
  | flip =>
      rw [hcl] at he
      simp only [dispatch] at he
      exact run_flips_events raws args e he
  | off =>
      rw [hcl] at he
      simp only [dispatch] at he
      exact Or.inr (let ⟨a, h⟩ := run_writes_events 0 args e he; ⟨a, 0, h⟩)
  | «on» =>
      rw [hcl] at he
      simp only [dispatch] at he
      exact Or.inr (let ⟨a, h⟩ := run_writes_events 1 args e he; ⟨a, 1, h⟩)
  | just =>
      rw [hcl] at he
      rcases hw : run_writes 1 args with ⟨es, err⟩
      cases err with
      | some err2 =>
          simp only [dispatch, hw] at he
          obtain ⟨a, h⟩ := run_writes_events 1 args e (by rw [hw]; exact he)
          exact Or.inr ⟨a, 1, h⟩
      | none =>
          cases hg : args_groups args with
          | error err2 =>
              simp only [dispatch, hw, hg] at he
              obtain ⟨a, h⟩ := run_writes_events 1 args e (by rw [hw]; exact he)
              exact Or.inr ⟨a, 1, h⟩
          | ok gs =>
              cases ht : turn_off_filter args gs (all_devices.map Prod.fst) with
              | error err2 =>
                  simp only [dispatch, hw, hg, ht] at he
                  obtain ⟨a, h⟩ := run_writes_events 1 args e (by rw [hw]; exact he)
                  exact Or.inr ⟨a, 1, h⟩
              | ok offs =>
                  simp only [dispatch, hw, hg, ht] at he
                  rcases List.mem_append.mp he with hes | hes2
                  · obtain ⟨a, h⟩ := run_writes_events 1 args e (by rw [hw]; exact hes)
                    exact Or.inr ⟨a, 1, h⟩
                  · obtain ⟨a, h⟩ := run_writes_events 0 offs e hes2
                    exact Or.inr ⟨a, 0, h⟩
  | print =>
      rw [hcl] at he
      rcases hs : run_status raws args [] with ⟨es, r⟩
      cases r with
      | error err =>
          simp only [dispatch, hs] at he
          exact Or.inl (run_status_events raws args [] e (by rw [hs]; exact he))
      | ok ps =>
          cases ps with
          | nil =>
              simp only [dispatch, hs] at he
              exact Or.inl (run_status_events raws args [] e (by rw [hs]; exact he))
          | cons p ps2 =>
              simp only [dispatch, hs] at he
              exact Or.inl (run_status_events raws args [] e (by rw [hs]; exact he))
  | status =>
      rw [hcl] at he
      cases args with
      | nil =>
          rcases hs : run_status raws [] [] with ⟨es, r⟩
          cases r with
          | error err =>
              simp only [dispatch, hs] at he
              exact Or.inl (run_status_events raws [] [] e (by rw [hs]; exact he))
          | ok ps =>
              simp only [dispatch, hs] at he
              exact Or.inl (run_status_events raws [] [] e (by rw [hs]; exact he))
      | cons a rest =>
          cases rest with
          | nil =>
              rcases hg : get_state a raws with ⟨es, r⟩
              cases r with
              | error err =>
                  simp only [dispatch, hg] at he
                  exact Or.inl ⟨a, get_state_events a raws e (by rw [hg]; exact he)⟩
              | ok v =>
                  simp only [dispatch, hg] at he
                  exact Or.inl ⟨a, get_state_events a raws e (by rw [hg]; exact he)⟩
          | cons b rest2 =>
              rcases hs : run_status raws (a :: b :: rest2) [] with ⟨es, r⟩
              cases r with
              | error err =>
                  simp only [dispatch, hs] at he
                  exact Or.inl (run_status_events raws (a :: b :: rest2) [] e
                    (by rw [hs]; exact he))
              | ok ps =>
                  simp only [dispatch, hs] at he
                  exact Or.inl (run_status_events raws (a :: b :: rest2) [] e
                    (by rw [hs]; exact he))
  | numericSet =>
      rw [hcl] at he
      cases hp : pf action with
      | none => simp only [dispatch, hp] at he; cases he
      | some v =>
          simp only [dispatch, hp] at he
          exact Or.inr (let ⟨a, h⟩ := run_writes_events v args e he; ⟨a, v, h⟩)

/-- An excluded device has no `"default"` entry. -/
theorem excluded_set_to_state_fails (d : String) (hd : d ∈ exclude) :
    ∀ v, set_to_state d v = .error (.keyError "default") := by
  intro v
  have hd2 : d = "temperature" ∨ d = "humidity" := by simpa [exclude] using hd
  rcases hd2 with rfl | rfl
  · rw [set_to_state,
      show List.lookup "temperature" all_devices =
        some ⟨"V6", "<auth_token>", none, none⟩ from rfl]
  · rw [set_to_state,
      show List.lookup "humidity" all_devices =
        some ⟨"V5", "<auth_token>", none, none⟩ from rfl]

/-- Amended `C10`: every write goes through `set_to_state`, which looks up
the device's `"default"` before issuing the update request; an excluded
device has no such entry, so the attempted write fails with a key-lookup
error and no action ever issues an update request for an excluded device
(`flip` still issues its preceding read request, and fails with a type
error instead when the value read back is not a whole number). -/
theorem excluded_never_written (d : String) (hd : d ∈ exclude) :
    (∀ v, set_to_state d v = .error (.keyError "default")) ∧
    (∀ (pf : String → Option ℚ) (action : String) (args : List String)
        (raws : String → ℚ) (lg enc : ℚ),
      Event.write d lg enc ∉ (take_action pf action args raws).events) := by
  refine ⟨excluded_set_to_state_fails d hd, ?_⟩
  intro pf action args raws lg enc hmem
  rcases take_action_events pf action args raws _ hmem with ⟨a, he⟩ | ⟨a, v', hok⟩
  · cases he
  · obtain ⟨cfg, da, hl, hdd, he⟩ := set_to_state_ok_inv a v' _ hok
    obtain ⟨rfl, -, -⟩ : d = a ∧ lg = v' ∧ enc = process_pin v' da :=
      ⟨(Event.write.inj he).1, (Event.write.inj he).2.1, (Event.write.inj he).2.2⟩
    rw [excluded_set_to_state_fails d hd v'] at hok
    cases hok

/-- Witness for the amended `C10` at `temperature` under the `on` action. -/
theorem excluded_never_written_witness :
    ("temperature" : String) ∈ exclude ∧
      set_to_state "temperature" 1 = .error (.keyError "default") ∧
      Event.write "temperature" 0 1 ∉
        (take_action (fun _ => none) "on" ["temperature"] (fun _ => 0)).events :=
  ⟨by decide,
    (excluded_never_written "temperature" (by decide)).1 1,
    (excluded_never_written "temperature" (by decide)).2
      (fun _ => none) "on" ["temperature"] (fun _ => 0) 0 1⟩

/-- Counterexample to `C10` as stated: `flip temperature` with a fractional
raw reading issues the read request for the device and then dies with a
`TypeError` (from `state ^ 1` on a float), not with a key-lookup error. -/
theorem excluded_write_counterexample :
    (take_action (fun _ => none) "flip" ["temperature"] (fun _ => mkRat 1 2)).error =
        some PyError.typeError ∧
      (take_action (fun _ => none) "flip" ["temperature"] (fun _ => mkRat 1 2)).events =
        [Event.read "temperature"] := by
  decide

/-- Witness for `C6` at `kitchen_light` (default 1) with raw payload 1,
which reads back as logical 0. -/
theorem flip_writes_one_encoded_zero_witness :
    get_state_val "kitchen_light" ⟨"d2", "<auth_token>", some 1, some "kitchen"⟩ 1 =
        .ok 0 ∧
      flip_state "kitchen_light" (fun _ => 1) =
        ([Event.read "kitchen_light", Event.write "kitchen_light" 1 0], none) :=
  ⟨by decide,
    flip_writes_one_encoded_zero "kitchen_light"
      ⟨"d2", "<auth_token>", some 1, some "kitchen"⟩ (fun _ => 1)
      (by decide) rfl (by decide) (by decide)⟩

end Blynk
